import Mathlib

set_option autoImplicit false

/-!
Verification of the resilient dynamic-module loader and the preload cache of
the `microfrontends-learn` repository.

The embedded code:

* `utils/remoteLoader.ts` — `createRemoteLoader(importFn, maxRetries = 3, baseDelay = 1000)`
  returns an async closure `loadWithRetry` sharing one mutable `retryCount`
  initialised to `0`.  Each call awaits `importFn()`; on rejection, while
  `retryCount < maxRetries`, it increments `retryCount`, waits
  `baseDelay * 2 ^ (retryCount - 1)` milliseconds and recurses; otherwise it
  throws `Error("Failed to load remote after ${maxRetries} attempts: …")`
  carrying the last underlying error message.

* `utils/preloader.ts` — `preloadRemoteModule(moduleName, importFn)` keeps a
  module-level `Map` from module name to the promise produced by the first
  `importFn()` call for that name, and returns the cached promise thereafter.

* `components/RemoteErrorBoundary.tsx` — a React class component catching
  render errors, with `maxRetries = 3`, a `handleRetry` that is a no-op once
  `retryCount` has reached `maxRetries`, and a default fallback that shows a
  retry button exactly while `retryCount < maxRetries`; plus `SmartSuspense`,
  which arms two timers (`minLoadingTime`, default 200, and `timeout`, default
  10000) and picks the Suspense fallback accordingly.

The embedding is a shallow one: promises are modelled by their eventual
outcomes (`Except`), the import factory by the function `Nat → Except E V`
giving the outcome of its n-th invocation, and elapsed timer time by a `Nat`
of milliseconds.
-/

namespace MfeLearn

/-- The failure thrown by `loadWithRetry` after exhausting its retries:
`Error("Failed to load remote after ${maxRetries} attempts: ${error.message}")`.
`reportedAttempts` is the number interpolated into the message (the code
interpolates `maxRetries` there) and `lastError` the wrapped underlying
error. -/
structure RemoteLoadError (E : Type) where
  reportedAttempts : Nat
  lastError : E
  deriving Repr, DecidableEq

instance exceptDecEq {E V : Type} [DecidableEq E] [DecidableEq V] :
    DecidableEq (Except E V) := fun
  | Except.ok a, Except.ok b =>
      if h : a = b then isTrue (by rw [h])
      else isFalse (by intro hh; cases hh; exact h rfl)
  | Except.ok _, Except.error _ => isFalse (by intro h; cases h)
  | Except.error _, Except.ok _ => isFalse (by intro h; cases h)
  | Except.error a, Except.error b =>
      if h : a = b then isTrue (by rw [h])
      else isFalse (by intro hh; cases hh; exact h rfl)

/-- The message string of the thrown error, for `E = String`. -/
def RemoteLoadError.message (err : RemoteLoadError String) : String :=
  "Failed to load remote after " ++ toString err.reportedAttempts
    ++ " attempts: " ++ err.lastError

/-- Observable effect of one call to the `loadWithRetry` closure:
its settled outcome, how many times `importFn` was invoked during the call,
the backoff delays awaited (in order, in milliseconds), and the value of the
shared mutable `retryCount` after the call returns. -/
structure LoadCall (E V : Type) where
  result : Except (RemoteLoadError E) V
  invocations : Nat
  delays : List Nat
  retryCount : Nat
  deriving Repr, DecidableEq

/-- Shallow embedding of `loadWithRetry` from `utils/remoteLoader.ts`.

`importFn n` is the outcome the factory's promise settles to on its n-th
invocation (0-based, counted across the whole lifetime of the loader);
`start` is how many invocations happened before this call, and `rc` the
current value of the closure variable `retryCount`.

Source:
```ts
const loadWithRetry = async () => {
  try { return await importFn() }
  catch (error) {
    if (retryCount < maxRetries) {
      retryCount++
      const delay = baseDelay * Math.pow(2, retryCount - 1)
      await new Promise((resolve) => setTimeout(resolve, delay))
      return loadWithRetry()
    }
    throw new Error(`Failed to load remote after ... attempts: ...`)
  }
}
``` -/
def loadWithRetry {E V : Type} (importFn : Nat → Except E V)
    (maxRetries baseDelay : Nat) (start rc : Nat) : LoadCall E V :=
  match importFn start with
  | Except.ok v => ⟨Except.ok v, 1, [], rc⟩
  | Except.error e =>
    if h : rc < maxRetries then
      let rc2 := rc + 1
      let delay := baseDelay * 2 ^ (rc2 - 1)
      let rest := loadWithRetry importFn maxRetries baseDelay (start + 1) rc2
      ⟨rest.result, rest.invocations + 1, delay :: rest.delays, rest.retryCount⟩
    else
      ⟨Except.error ⟨maxRetries, e⟩, 1, [], rc⟩
termination_by maxRetries - rc
decreasing_by simp_wf; omega

/-- A single call to the loader freshly returned by
`createRemoteLoader(importFn, maxRetries, baseDelay)`: the closure starts
with `retryCount = 0` and no prior factory invocations. -/
def createRemoteLoader {E V : Type} (importFn : Nat → Except E V)
    (maxRetries baseDelay : Nat) : LoadCall E V :=
  loadWithRetry importFn maxRetries baseDelay 0 0

/-- A sequence of `n` successive calls to the same loader closure: the shared
`retryCount` and the factory-invocation counter persist from one call to the
next. -/
def runLoaderCalls {E V : Type} (importFn : Nat → Except E V)
    (maxRetries baseDelay : Nat) : Nat → Nat → Nat → List (LoadCall E V)
  | 0, _, _ => []
  | n + 1, start, rc =>
    let c := loadWithRetry importFn maxRetries baseDelay start rc
    c :: runLoaderCalls importFn maxRetries baseDelay n (start + c.invocations) c.retryCount

/-! ### The preload cache (`utils/preloader.ts`)

Promises are identified by their creation order: `prom n : P` is the promise
the factory produces on its n-th invocation overall, where `P` is an abstract
type of promises (for a rejected promise take e.g. `P = Except String V` and
an `Except.error` value — the cache code never inspects the promise, so its
settledness is irrelevant to it). -/

/-- The module-level `remoteModuleCache : Map<string, Promise<any>>`, plus
bookkeeping the claims speak about: `nextId` numbers the next factory
invocation and `log` records the module names for which `importFn()` was
actually invoked, in order. -/
structure PreloadState (P : Type) where
  cache : List (String × P)
  nextId : Nat
  log : List String

/-- The state at page load: an empty `Map`, no factory invocations. -/
def emptyPreloadState (P : Type) : PreloadState P := ⟨[], 0, []⟩

/-- `Map.get`/`Map.has` on the association-list model of the cache (the code
inserts a key only when absent, so entries are unique and prepending models
`Map.set` exactly). -/
def cacheGet {P : Type} (name : String) : List (String × P) → Option P
  | [] => none
  | (k, v) :: rest => if k = name then some v else cacheGet name rest

/-- Shallow embedding of `preloadRemoteModule` from `utils/preloader.ts`:

```ts
if (!remoteModuleCache.has(moduleName)) {
  remoteModuleCache.set(moduleName, importFn())
}
return remoteModuleCache.get(moduleName)!
```

Returns the promise handed to the caller together with the successor state.
JavaScript runs these calls one at a time on the event loop, so a sequence of
(possibly interleaved) calls is a list of names processed in order. -/
def preloadRemoteModule {P : Type} (prom : Nat → P) (name : String)
    (s : PreloadState P) : P × PreloadState P :=
  match cacheGet name s.cache with
  | some p => (p, s)
  | none =>
    let p := prom s.nextId
    (p, ⟨(name, p) :: s.cache, s.nextId + 1, s.log ++ [name]⟩)

/-- A sequence of `preloadRemoteModule` calls, one per listed module name,
returning the promises handed back in order and the final state. -/
def runPreloads {P : Type} (prom : Nat → P) :
    List String → PreloadState P → List P × PreloadState P
  | [], s => ([], s)
  | n :: ns, s =>
    let r := preloadRemoteModule prom n s
    let rest := runPreloads prom ns r.2
    (r.1 :: rest.1, rest.2)

/-! ### `RemoteErrorBoundary` (`components/RemoteErrorBoundary.tsx`)

React's contract for a class error boundary: when a child's render throws,
React calls `getDerivedStateFromError` and merges the returned partial state
into the component state, then renders the boundary again; the thrown error
does not propagate past the boundary.  The component's own logic is embedded
below. -/

namespace RemoteErrorBoundary

/-- `private maxRetries = 3`. -/
def maxRetries : Nat := 3

/-- The component state (`hasError`, `error?`, `retryCount`); the error is
represented by its message. -/
structure State where
  hasError : Bool
  error : Option String
  retryCount : Nat
  deriving Repr, DecidableEq

/-- `this.state = { hasError: false, retryCount: 0 }` (constructor). -/
def initialState : State := ⟨false, none, 0⟩

/-- `static getDerivedStateFromError(error)`: returns the partial state
`{ hasError: true, error }`, which React merges into the current state. -/
def getDerivedStateFromError (error : String) (s : State) : State :=
  { s with hasError := true, error := some error }

/-- `handleRetry`: resets the error and increments `retryCount`, but only
while `retryCount < maxRetries`; otherwise it does nothing. -/
def handleRetry (s : State) : State :=
  if s.retryCount < maxRetries then
    ⟨false, none, s.retryCount + 1⟩
  else s

/-- What `render()` produces, abstracted to the cases the markup
distinguishes: the children, the caller-supplied `fallback` prop, or the
default fallback with its retry button (shown iff `canRetry`), the attempt
counter it displays, and the "temporarily unavailable" message (shown iff
`¬canRetry`). -/
inductive Rendered where
  | children
  | customFallback
  | defaultFallback (showsRetryButton : Bool) (attemptShown : Nat)
      (unavailableMessage : Bool)
  deriving Repr, DecidableEq

/-- `render()`:

```tsx
if (this.state.hasError) {
  const canRetry = this.state.retryCount < this.maxRetries
  return this.props.fallback || ( ... default fallback ... )
}
return this.props.children
``` -/
def render (hasCustomFallback : Bool) (s : State) : Rendered :=
  if s.hasError then
    if hasCustomFallback then Rendered.customFallback
    else
      Rendered.defaultFallback (decide (s.retryCount < maxRetries))
        (s.retryCount + 1) (decide (¬ s.retryCount < maxRetries))
  else Rendered.children

end RemoteErrorBoundary

/-! ### `SmartSuspense` (`components/RemoteErrorBoundary.tsx`)

The component arms two timers on mount (`setTimeout(..., minLoadingTime)`
and `setTimeout(..., timeout)`) setting `showFallback` and `showTimeout`;
the rendered `Suspense` shows the children once they are no longer
suspended, and otherwise the fallback computed from the two flags.  A timer
armed for `d` milliseconds has fired at wall-clock time `t` after mount iff
`d ≤ t`. -/

namespace SmartSuspense

/-- Default of the `minLoadingTime` prop. -/
def defaultMinLoadingTime : Nat := 200

/-- Default of the `timeout` prop. -/
def defaultTimeout : Nat := 10000

/-- What the user sees, by the cases of the markup. -/
inductive View where
  | content
  | empty
  | loadingFallback
  | timeoutMessage
  deriving Repr, DecidableEq

/-- What `SmartSuspense` shows `t` milliseconds after mounting, given whether
its children are still suspended on their fetch.  The fallback is the
"taking longer than expected" box once `showTimeout` fired, else the loading
fallback once `showFallback` fired, else `null`; `Suspense` swaps the
children back in whenever they stop being suspended.  Nothing here touches
the fetch: `suspended` is an input, never modified. -/
def render (minLoadingTime timeout t : Nat) (suspended : Bool) : View :=
  if suspended then
    if timeout ≤ t then View.timeoutMessage
    else if minLoadingTime ≤ t then View.loadingFallback
    else View.empty
  else View.content

end SmartSuspense

/-! ### Behaviour of a single `loadWithRetry` call -/

/-- When every invocation of the factory rejects (invocation `n` with error
`errs n`), a call entered with `retryCount = rc ≤ maxRetries` performs
`maxRetries - rc + 1` invocations, waits the geometric backoff delays, leaves
`retryCount = maxRetries` and throws the wrapping error built from
`maxRetries` and the error of the last invocation. -/
theorem loadWithRetry_allFail {E V : Type} (errs : Nat → E) (m b s rc : Nat) (h : rc ≤ m) :
    loadWithRetry (fun n => (Except.error (errs n) : Except E V)) m b s rc =
      ⟨Except.error ⟨m, errs (s + (m - rc))⟩, m - rc + 1,
       (List.range (m - rc)).map (fun i => b * 2 ^ (rc + i)), m⟩ := by
  rw [loadWithRetry]
  dsimp only
  by_cases hlt : rc < m
  · rw [dif_pos hlt]
    have ih := loadWithRetry_allFail (V := V) errs m b (s + 1) (rc + 1) hlt
    rw [ih]
    dsimp only
    have h1 : s + 1 + (m - (rc + 1)) = s + (m - rc) := by omega
    have h3 : m - rc = (m - (rc + 1)) + 1 := by omega
    rw [LoadCall.mk.injEq]
    refine ⟨by rw [h1], by omega, ?_, rfl⟩
    rw [h3, List.range_succ_eq_map, List.map_cons, List.map_map,
      List.cons.injEq]
    constructor
    · norm_num
    · apply List.map_congr_left
      intro i _
      simp only [Function.comp_apply]
      have h4 : rc + 1 + i = rc + Nat.succ i := by omega
      rw [h4]
  · have heq : rc = m := by omega
    subst heq
    rw [dif_neg hlt]
    simp [Nat.sub_self]
termination_by m - rc
decreasing_by simp_wf; omega

/-- `retryCount` never decreases across a call, never exceeds
`max rc maxRetries`, and the number of delays awaited equals the increase of
`retryCount` (each backoff wait is preceded by exactly one `retryCount++`). -/
theorem loadWithRetry_retryCount_spec {E V : Type} (f : Nat → Except E V) (m b s rc : Nat) :
    rc ≤ (loadWithRetry f m b s rc).retryCount
    ∧ (loadWithRetry f m b s rc).retryCount ≤ max rc m
    ∧ (loadWithRetry f m b s rc).delays.length
        = (loadWithRetry f m b s rc).retryCount - rc := by
  rw [loadWithRetry]
  rcases hfs : f s with e | v
  · simp only [hfs]
    by_cases hlt : rc < m
    · rw [dif_pos hlt]
      obtain ⟨ih1, ih2, ih3⟩ := loadWithRetry_retryCount_spec f m b (s + 1) (rc + 1)
      dsimp only
      simp only [List.length_cons]
      omega
    · rw [dif_neg hlt]
      dsimp only
      simp only [List.length_nil]
      omega
  · simp only [hfs]
    simp only [List.length_nil]
    omega
termination_by m - rc
decreasing_by simp_wf; omega

/-- The delays awaited by a call are exactly the geometric backoff schedule:
the i-th delay (0-based) is `baseDelay * 2 ^ (rc + i)`, whatever the factory
does. -/
theorem loadWithRetry_delays_eq {E V : Type} (f : Nat → Except E V) (m b s rc : Nat) :
    (loadWithRetry f m b s rc).delays =
      (List.range ((loadWithRetry f m b s rc).retryCount - rc)).map
        (fun i => b * 2 ^ (rc + i)) := by
  rw [loadWithRetry]
  rcases hfs : f s with e | v
  · simp only [hfs]
    by_cases hlt : rc < m
    · rw [dif_pos hlt]
      have ih := loadWithRetry_delays_eq f m b (s + 1) (rc + 1)
      obtain ⟨hge, -, -⟩ := loadWithRetry_retryCount_spec f m b (s + 1) (rc + 1)
      dsimp only
      have h3 : (loadWithRetry f m b (s + 1) (rc + 1)).retryCount - rc
          = ((loadWithRetry f m b (s + 1) (rc + 1)).retryCount - (rc + 1)) + 1 := by
        omega
      rw [ih, h3, List.range_succ_eq_map, List.map_cons, List.map_map,
        List.cons.injEq]
      constructor
      · norm_num
      · apply List.map_congr_left
        intro i _
        simp only [Function.comp_apply]
        have h4 : rc + 1 + i = rc + Nat.succ i := by omega
        rw [h4]
    · rw [dif_neg hlt]
      simp [Nat.sub_self]
  · simp only [hfs]
    simp [Nat.sub_self]
termination_by m - rc
decreasing_by simp_wf; omega

/-- When the factory rejects on the first `k` invocations of a call and
resolves with `v` on the next one, and the retry budget suffices
(`rc + k ≤ maxRetries`), the call returns `v` after exactly `k + 1`
invocations, awaiting the geometric backoff delays in between. -/
theorem loadWithRetry_firstOk {E V : Type} (f : Nat → Except E V) (m b : Nat)
    (k : Nat) (v : V) : ∀ (s rc : Nat), rc + k ≤ m →
    (∀ i, i < k → ∃ e, f (s + i) = Except.error e) →
    f (s + k) = Except.ok v →
    loadWithRetry f m b s rc =
      ⟨Except.ok v, k + 1, (List.range k).map (fun i => b * 2 ^ (rc + i)), rc + k⟩ := by
  induction k with
  | zero =>
    intro s rc _ _ hok
    rw [loadWithRetry]
    simp only [Nat.add_zero] at hok
    simp only [hok]
    simp
  | succ k ih =>
    intro s rc hk hfail hok
    obtain ⟨e, he⟩ := hfail 0 (Nat.succ_pos k)
    simp only [Nat.add_zero] at he
    rw [loadWithRetry]
    simp only [he]
    have hlt : rc < m := by omega
    rw [dif_pos hlt]
    have hfail2 : ∀ i, i < k → ∃ e, f (s + 1 + i) = Except.error e := by
      intro i hi
      obtain ⟨e2, he2⟩ := hfail (i + 1) (by omega)
      refine ⟨e2, ?_⟩
      have : s + 1 + i = s + (i + 1) := by omega
      rw [this, he2]
    have hok2 : f (s + 1 + k) = Except.ok v := by
      have : s + 1 + k = s + (k + 1) := by omega
      rw [this, hok]
    rw [ih (s + 1) (rc + 1) (by omega) hfail2 hok2]
    dsimp only
    rw [LoadCall.mk.injEq]
    refine ⟨rfl, rfl, ?_, by omega⟩
    rw [List.range_succ_eq_map, List.map_cons, List.map_map, List.cons.injEq]
    constructor
    · norm_num
    · apply List.map_congr_left
      intro i _
      simp only [Function.comp_apply]
      have h4 : rc + 1 + i = rc + Nat.succ i := by omega
      rw [h4]

/-- A call entered with the retry budget already exhausted
(`retryCount = maxRetries`) whose factory invocation rejects fails
immediately: one invocation, no delay, no retry, and the wrapping error is
thrown at once. -/
theorem loadWithRetry_exhausted {E V : Type} (f : Nat → Except E V) (m b s : Nat) (e : E)
    (h : f s = Except.error e) :
    loadWithRetry f m b s m = ⟨Except.error ⟨m, e⟩, 1, [], m⟩ := by
  rw [loadWithRetry]
  simp only [h]
  rw [dif_neg (lt_irrefl m)]

/-- Across any number of successive calls to the same loader closure, the
total number of delayed re-attempts is bounded by the remaining retry
budget `maxRetries - rc`. -/
theorem runLoaderCalls_retry_total {E V : Type} (f : Nat → Except E V) (m b : Nat) :
    ∀ (n s rc : Nat), rc ≤ m →
    ((runLoaderCalls f m b n s rc).map (fun c => c.delays.length)).sum ≤ m - rc := by
  intro n
  induction n with
  | zero => intro s rc _; simp [runLoaderCalls]
  | succ n ih =>
    intro s rc hrc
    rw [runLoaderCalls]
    simp only [List.map_cons, List.sum_cons]
    obtain ⟨h1, h2, h3⟩ := loadWithRetry_retryCount_spec f m b s rc
    have hrc2 : (loadWithRetry f m b s rc).retryCount ≤ m := by omega
    have := ih (s + (loadWithRetry f m b s rc).invocations)
      (loadWithRetry f m b s rc).retryCount hrc2
    omega

/-- Evaluating `getD` on a mapped range. -/
theorem getD_map_range (g : Nat → Nat) (L i : Nat) (h : i < L) :
    ((List.range L).map g).getD i 0 = g i := by
  rw [List.getD_eq_getElem?_getD, List.getElem?_map, List.getElem?_range h]
  rfl

/-- After a call for `name`, the cache maps `name` to exactly the promise the
call returned. -/
theorem preload_result_cached {P : Type} (prom : Nat → P) (name : String) (s : PreloadState P) :
    cacheGet name (preloadRemoteModule prom name s).2.cache
      = some (preloadRemoteModule prom name s).1 := by
  rw [preloadRemoteModule]
  rcases h : cacheGet name s.cache with _ | p
  · dsimp only
    rw [cacheGet]
    simp
  · dsimp only
    exact h

/-- A cached entry survives any later call unchanged, that call performs no
factory invocation for the entry's name, and a call for the entry's own name
returns the cached promise. -/
theorem preload_mono {P : Type} (prom : Nat → P) (n name : String) (s : PreloadState P) (p : P)
    (h : cacheGet name s.cache = some p) :
    cacheGet name (preloadRemoteModule prom n s).2.cache = some p
    ∧ (preloadRemoteModule prom n s).2.log.count name = s.log.count name
    ∧ (n = name → (preloadRemoteModule prom n s).1 = p) := by
  rw [preloadRemoteModule]
  rcases hn : cacheGet n s.cache with _ | q
  · have hne : n ≠ name := by
      intro he
      rw [he, h] at hn
      cases hn
    dsimp only
    refine ⟨?_, ?_, fun he => absurd he hne⟩
    · rw [cacheGet, if_neg hne]
      exact h
    · simp [List.count_append, List.count_cons, hne]
  · dsimp only
    refine ⟨h, rfl, fun he => ?_⟩
    rw [he] at hn
    rw [h] at hn
    exact (Option.some.injEq _ _ ▸ hn).symm

/-- `preload_mono`, extended over any sequence of later calls. -/
theorem runPreloads_mono {P : Type} (prom : Nat → P) (names : List String) :
    ∀ (s : PreloadState P) (name : String) (p : P),
    cacheGet name s.cache = some p →
    cacheGet name (runPreloads prom names s).2.cache = some p
    ∧ (runPreloads prom names s).2.log.count name = s.log.count name
    ∧ ∀ (i : Nat) (hi : i < names.length) (d : P),
        names.get ⟨i, hi⟩ = name → (runPreloads prom names s).1.getD i d = p := by
  induction names with
  | nil =>
    intro s name p h
    refine ⟨h, rfl, ?_⟩
    intro i hi
    simp at hi
  | cons n ns ih =>
    intro s name p h
    rw [runPreloads]
    dsimp only
    obtain ⟨m1, m2, m3⟩ := preload_mono prom n name s p h
    obtain ⟨r1, r2, r3⟩ := ih (preloadRemoteModule prom n s).2 name p m1
    refine ⟨r1, by rw [r2, m2], ?_⟩
    intro i hi d hname
    cases i with
    | zero =>
      simp only [List.get] at hname
      simp only [List.getD_cons_zero]
      exact m3 hname
    | succ i =>
      simp only [List.getD_cons_succ]
      exact r3 i (by simpa using hi) d (by simpa using hname)

/-- Each call's returned promise is the one the final cache holds for its
module name. -/
theorem runPreloads_result_lookup {P : Type} (prom : Nat → P) (names : List String) :
    ∀ (s : PreloadState P) (i : Nat) (hi : i < names.length) (d : P),
      cacheGet (names.get ⟨i, hi⟩) (runPreloads prom names s).2.cache
        = some ((runPreloads prom names s).1.getD i d) := by
  induction names with
  | nil => intro s i hi d; simp at hi
  | cons n ns ih =>
    intro s i hi d
    rw [runPreloads]
    dsimp only
    cases i with
    | zero =>
      have h1 := preload_result_cached prom n s
      obtain ⟨r1, -, -⟩ :=
        runPreloads_mono prom ns (preloadRemoteModule prom n s).2 n _ h1
      simpa using r1
    | succ i =>
      have := ih (preloadRemoteModule prom n s).2 i (by simpa using hi) d
      simpa using this

/-- Factory-invocation counting: a run adds one invocation for `name` exactly
when `name` occurs in the sequence and was not already cached. -/
theorem runPreloads_log_count {P : Type} (prom : Nat → P) (names : List String) :
    ∀ (s : PreloadState P) (name : String),
    (runPreloads prom names s).2.log.count name
      = s.log.count name
        + (if name ∈ names ∧ (cacheGet name s.cache).isNone then 1 else 0) := by
  induction names with
  | nil => intro s name; simp [runPreloads]
  | cons n ns ih =>
    intro s name
    rw [runPreloads]
    dsimp only
    rw [ih]
    rw [preloadRemoteModule]
    rcases hn : cacheGet n s.cache with _ | q
    · dsimp only
      by_cases he : n = name
      · subst he
        simp [cacheGet, List.count_append, List.count_cons, hn]
      · have hne : ¬ name = n := fun h => he h.symm
        simp only [cacheGet, List.count_append, List.count_cons, List.count_nil]
        simp only [if_neg he, List.mem_cons, List.count_nil]
        rw [if_neg (by simpa using he : ¬ ((n == name) = true))]
        have hcond : ((name = n ∨ name ∈ ns) ∧ (cacheGet name s.cache).isNone = true)
            ↔ (name ∈ ns ∧ (cacheGet name s.cache).isNone = true) := by
          constructor
          · rintro ⟨h1, h2⟩
            exact ⟨h1.resolve_left hne, h2⟩
          · rintro ⟨h1, h2⟩
            exact ⟨Or.inr h1, h2⟩
        rw [if_congr hcond rfl rfl]
        omega
    · dsimp only
      by_cases he : n = name
      · subst he
        simp [hn]
      · have hne : ¬ name = n := fun h => he h.symm
        simp only [List.mem_cons]
        have hcond : ((name = n ∨ name ∈ ns) ∧ (cacheGet name s.cache).isNone = true)
            ↔ (name ∈ ns ∧ (cacheGet name s.cache).isNone = true) := by
          constructor
          · rintro ⟨h1, h2⟩
            exact ⟨h1.resolve_left hne, h2⟩
          · rintro ⟨h1, h2⟩
            exact ⟨Or.inr h1, h2⟩
        rw [if_congr hcond rfl rfl]

/-! ### The claims -/

/-- C1: for every factory whose promise always rejects, the loader returned
by `createRemoteLoader(factory, maxRetries, baseDelay)` invokes the factory
exactly `maxRetries + 1` times before its returned promise rejects. -/
theorem loader_allReject_attempts {E V : Type} (errs : Nat → E) (m b : Nat) :
    (createRemoteLoader (fun n => (Except.error (errs n) : Except E V)) m b).invocations
      = m + 1
    ∧ ∃ err, (createRemoteLoader (fun n => (Except.error (errs n) : Except E V)) m b).result
        = Except.error err := by
  rw [createRemoteLoader, loadWithRetry_allFail errs m b 0 0 (Nat.zero_le m)]
  exact ⟨rfl, _, rfl⟩

theorem loader_allReject_attempts_witness :
    (createRemoteLoader (fun _ => (Except.error "boom" : Except String Nat)) 3 1000).invocations
      = 3 + 1
    ∧ ∃ err, (createRemoteLoader (fun _ => (Except.error "boom" : Except String Nat)) 3 1000).result
        = Except.error err :=
  loader_allReject_attempts (fun _ => "boom") 3 1000

/-- C2: for every `N` with `1 ≤ N ≤ maxRetries + 1` and every factory that
rejects on its first `N - 1` invocations and resolves with `v` on the `N`-th,
the loader resolves with `v` and invokes the factory exactly `N` times,
performing no further attempts. -/
theorem loader_resolves_on_nth_attempt {E V : Type} (f : Nat → Except E V)
    (m b N : Nat) (v : V)
    (h1 : 1 ≤ N) (h2 : N ≤ m + 1)
    (hfail : ∀ i, i < N - 1 → ∃ e, f i = Except.error e)
    (hok : f (N - 1) = Except.ok v) :
    (createRemoteLoader f m b).result = Except.ok v
    ∧ (createRemoteLoader f m b).invocations = N := by
  have hcall := loadWithRetry_firstOk f m b (N - 1) v 0 0 (by omega)
    (by intro i hi; simpa using hfail i hi)
    (by simpa using hok)
  rw [createRemoteLoader, hcall]
  refine ⟨rfl, ?_⟩
  dsimp only
  omega

theorem loader_resolves_on_nth_attempt_witness :
    (createRemoteLoader
        (fun n => if n < 1 then Except.error "boom" else Except.ok 42) 3 1000).result
      = Except.ok 42
    ∧ (createRemoteLoader
        (fun n => if n < 1 then Except.error "boom" else Except.ok 42) 3 1000).invocations
      = 2 :=
  loader_resolves_on_nth_attempt
    (fun n => if n < 1 then Except.error "boom" else Except.ok 42) 3 1000 2 42
    (by decide) (by decide)
    (fun i hi => ⟨"boom", by interval_cases i; decide⟩)
    (by decide)

/-- C3: for every failed attempt `k` (1-based) that is followed by a retry,
the delay the loader waits between attempt `k` and attempt `k + 1` equals
`baseDelay * 2 ^ (k - 1)` milliseconds. -/
theorem loader_backoff_delay {E V : Type} (f : Nat → Except E V) (m b k : Nat)
    (h1 : 1 ≤ k) (h2 : k ≤ (createRemoteLoader f m b).delays.length) :
    (createRemoteLoader f m b).delays.getD (k - 1) 0 = b * 2 ^ (k - 1) := by
  rw [createRemoteLoader] at h2 ⊢
  rw [loadWithRetry_delays_eq f m b 0 0] at h2 ⊢
  rw [getD_map_range]
  · rw [Nat.zero_add]
  · simp only [List.length_map, List.length_range] at h2
    omega

theorem loader_backoff_delay_witness :
    1 ≤ 3
    ∧ 3 ≤ (createRemoteLoader (fun _ => (Except.error "x" : Except String Nat)) 3 1000).delays.length
    ∧ (createRemoteLoader (fun _ => (Except.error "x" : Except String Nat)) 3 1000).delays.getD (3 - 1) 0
        = 1000 * 2 ^ (3 - 1) := by
  refine ⟨by decide, ?_, ?_⟩
  · simp [createRemoteLoader, loadWithRetry]
  · exact loader_backoff_delay (fun _ => (Except.error "x" : Except String Nat)) 3 1000 3
      (by decide) (by simp [createRemoteLoader, loadWithRetry])

/-- C4 as stated is false: with `maxRetries = 3` and an always-rejecting
factory, 4 attempts are made but the thrown error reports 3 — the
`maxRetries` bound, not the number of attempts made. -/
theorem loader_error_undercounts_attempts_cex :
    (createRemoteLoader (fun _ => (Except.error "boom" : Except String Nat)) 3 1000).result
        = Except.error ⟨3, "boom"⟩
    ∧ (createRemoteLoader (fun _ => (Except.error "boom" : Except String Nat)) 3 1000).invocations
        = 4
    ∧ (3 : Nat) ≠ 4 := by
  refine ⟨?_, ?_, by decide⟩ <;> · simp [createRemoteLoader, loadWithRetry]

/-- C4 (amended): when all attempts are exhausted, the loader fails with the
wrapping error whose message carries the last underlying error, and the
attempt count it reports is the configured `maxRetries` — one fewer than the
`maxRetries + 1` attempts actually made. -/
theorem loader_exhausted_error_contents {E V : Type} (errs : Nat → E) (m b : Nat) :
    (createRemoteLoader (fun n => (Except.error (errs n) : Except E V)) m b).result
        = Except.error ⟨m, errs m⟩
    ∧ (createRemoteLoader (fun n => (Except.error (errs n) : Except E V)) m b).invocations
        = m + 1 := by
  rw [createRemoteLoader, loadWithRetry_allFail errs m b 0 0 (Nat.zero_le m)]
  refine ⟨?_, rfl⟩
  simp

theorem loader_exhausted_error_contents_witness :
    (createRemoteLoader (fun _ => (Except.error "boom" : Except String Nat)) 3 1000).result
        = Except.error ⟨3, "boom"⟩
    ∧ (createRemoteLoader (fun _ => (Except.error "boom" : Except String Nat)) 3 1000).invocations
        = 3 + 1 :=
  loader_exhausted_error_contents (fun _ => "boom") 3 1000

/-- C6: `createRemoteLoader(factory, 3, 1000)` where the factory rejects
twice then resolves with 42: the factory is invoked exactly 3 times, the
backoff delays are 1000 and 2000 ms (3000 ms in total), and the loader
resolves with 42. -/
theorem loader_example_two_failures_then_success :
    (createRemoteLoader
        (fun n => if n < 2 then Except.error "offline" else Except.ok 42) 3 1000).result
      = Except.ok 42
    ∧ (createRemoteLoader
        (fun n => if n < 2 then Except.error "offline" else Except.ok 42) 3 1000).invocations
      = 3
    ∧ (createRemoteLoader
        (fun n => if n < 2 then Except.error "offline" else Except.ok 42) 3 1000).delays
      = [1000, 2000]
    ∧ ((createRemoteLoader
        (fun n => if n < 2 then Except.error "offline" else Except.ok 42) 3 1000).delays).sum
      = 3000 := by
  refine ⟨?_, ?_, ?_, ?_⟩ <;> simp [createRemoteLoader, loadWithRetry]

/-- C9: the retry counter lives in the `createRemoteLoader` closure and is
shared by all calls to the returned loader: over any sequence of calls at
most `maxRetries` delayed re-attempts happen in total, and a call entered
with the budget exhausted whose factory invocation rejects fails immediately
— one invocation, no delay, no retry. -/
theorem loader_shared_retry_budget {E V : Type} (f : Nat → Except E V)
    (m b n s s2 : Nat) (e : E) (h : f s2 = Except.error e) :
    ((runLoaderCalls f m b n s 0).map (fun c => c.delays.length)).sum ≤ m
    ∧ loadWithRetry f m b s2 m = ⟨Except.error ⟨m, e⟩, 1, [], m⟩ := by
  constructor
  · have := runLoaderCalls_retry_total f m b n s 0 (Nat.zero_le m)
    omega
  · exact loadWithRetry_exhausted f m b s2 e h

theorem loader_shared_retry_budget_witness :
    ((runLoaderCalls (fun _ => (Except.error "x" : Except String Nat)) 1 5 4 0 0).map
        (fun c => c.delays.length)).sum ≤ 1
    ∧ loadWithRetry (fun _ => (Except.error "x" : Except String Nat)) 1 5 99 1
        = ⟨Except.error ⟨1, "x"⟩, 1, [], 1⟩ :=
  loader_shared_retry_budget (fun _ => (Except.error "x" : Except String Nat))
    1 5 4 0 99 "x" rfl

/-- C5: over any sequence of `preloadRemoteModule` calls (started on a fresh
page, i.e. an empty cache), the factory is invoked exactly once per module
identifier that occurs in the sequence, and any two calls with the same
identifier are handed the same cached promise. -/
theorem preload_cache_single_invocation {P : Type} (prom : Nat → P)
    (names : List String) (name : String) (i j : Nat)
    (hi : i < names.length) (hj : j < names.length)
    (heq : names.get ⟨i, hi⟩ = names.get ⟨j, hj⟩) :
    (runPreloads prom names (emptyPreloadState P)).2.log.count name
        = (if name ∈ names then 1 else 0)
    ∧ (runPreloads prom names (emptyPreloadState P)).1.getD i (prom 0)
        = (runPreloads prom names (emptyPreloadState P)).1.getD j (prom 0) := by
  constructor
  · have h := runPreloads_log_count prom names (emptyPreloadState P) name
    simpa [emptyPreloadState, cacheGet] using h
  · have hr1 := runPreloads_result_lookup prom names (emptyPreloadState P) i hi (prom 0)
    have hr2 := runPreloads_result_lookup prom names (emptyPreloadState P) j hj (prom 0)
    rw [heq] at hr1
    exact Option.some.inj (hr1.symm.trans hr2)

theorem preload_cache_single_invocation_witness :
    (runPreloads (fun n => n) ["a", "b", "a"] (emptyPreloadState Nat)).2.log.count "a"
        = (if "a" ∈ ["a", "b", "a"] then 1 else 0)
    ∧ (runPreloads (fun n => n) ["a", "b", "a"] (emptyPreloadState Nat)).1.getD 0 ((fun n => n) 0)
        = (runPreloads (fun n => n) ["a", "b", "a"] (emptyPreloadState Nat)).1.getD 2 ((fun n => n) 0) :=
  preload_cache_single_invocation (fun n => n) ["a", "b", "a"] "a" 0 2
    (by decide) (by decide) (by decide)

/-- C10: `preloadRemoteModule` never removes or replaces a cache entry: once
a promise `p` is cached for a module identifier — in particular a rejected
one — any sequence of further calls leaves the entry equal to `p`, performs
no factory invocation for that identifier, and hands `p` back to every call
for it; the cache does no retry or recovery after a failed load. -/
theorem preload_cache_never_replaced {P : Type} (prom : Nat → P)
    (names : List String) (s : PreloadState P) (name : String) (p : P)
    (h : cacheGet name s.cache = some p) :
    cacheGet name (runPreloads prom names s).2.cache = some p
    ∧ (runPreloads prom names s).2.log.count name = s.log.count name
    ∧ ∀ (i : Nat) (hi : i < names.length),
        names.get ⟨i, hi⟩ = name → (runPreloads prom names s).1.getD i p = p := by
  obtain ⟨r1, r2, r3⟩ := runPreloads_mono prom names s name p h
  exact ⟨r1, r2, fun i hi hn => r3 i hi p hn⟩

theorem preload_cache_never_replaced_witness :
    cacheGet "m" (runPreloads (fun _ => (Except.error "load failed" : Except String Unit))
        ["m", "m"] ⟨[("m", Except.error "load failed")], 1, ["m"]⟩).2.cache
      = some (Except.error "load failed")
    ∧ (runPreloads (fun _ => (Except.error "load failed" : Except String Unit))
        ["m", "m"] ⟨[("m", Except.error "load failed")], 1, ["m"]⟩).2.log.count "m"
      = (["m"] : List String).count "m"
    ∧ ∀ (i : Nat) (hi : i < (["m", "m"] : List String).length),
        (["m", "m"] : List String).get ⟨i, hi⟩ = "m" →
        (runPreloads (fun _ => (Except.error "load failed" : Except String Unit))
            ["m", "m"] ⟨[("m", Except.error "load failed")], 1, ["m"]⟩).1.getD i
            (Except.error "load failed") = Except.error "load failed" :=
  preload_cache_never_replaced (fun _ => (Except.error "load failed" : Except String Unit))
    ["m", "m"] ⟨[("m", Except.error "load failed")], 1, ["m"]⟩ "m"
    (Except.error "load failed") (by simp [cacheGet])

/-- C7: when a child's render throws, the boundary (rendering its default
markup) shows the fallback — never the children — with the retry button
present exactly while `retryCount < maxRetries`; and once `retryCount` has
reached `maxRetries`, `handleRetry` leaves the state unchanged. -/
theorem remoteErrorBoundary_retry_policy (s : RemoteErrorBoundary.State) (e : String) :
    RemoteErrorBoundary.render false (RemoteErrorBoundary.getDerivedStateFromError e s)
        = RemoteErrorBoundary.Rendered.defaultFallback
            (decide (s.retryCount < RemoteErrorBoundary.maxRetries))
            (s.retryCount + 1)
            (decide (¬ s.retryCount < RemoteErrorBoundary.maxRetries))
    ∧ RemoteErrorBoundary.render false (RemoteErrorBoundary.getDerivedStateFromError e s)
        ≠ RemoteErrorBoundary.Rendered.children
    ∧ (RemoteErrorBoundary.maxRetries ≤ s.retryCount →
        RemoteErrorBoundary.handleRetry s = s) := by
  refine ⟨rfl, by simp [RemoteErrorBoundary.render, RemoteErrorBoundary.getDerivedStateFromError], ?_⟩
  intro hle
  rw [RemoteErrorBoundary.handleRetry, if_neg (by omega)]

theorem remoteErrorBoundary_retry_policy_witness :
    RemoteErrorBoundary.render false
        (RemoteErrorBoundary.getDerivedStateFromError "boom" ⟨false, none, 3⟩)
        = RemoteErrorBoundary.Rendered.defaultFallback
            (decide ((3 : Nat) < RemoteErrorBoundary.maxRetries))
            (3 + 1)
            (decide (¬ (3 : Nat) < RemoteErrorBoundary.maxRetries))
    ∧ RemoteErrorBoundary.render false
        (RemoteErrorBoundary.getDerivedStateFromError "boom" ⟨false, none, 3⟩)
        ≠ RemoteErrorBoundary.Rendered.children
    ∧ (RemoteErrorBoundary.maxRetries ≤ (3 : Nat) →
        RemoteErrorBoundary.handleRetry ⟨false, none, 3⟩ = ⟨false, none, 3⟩) :=
  remoteErrorBoundary_retry_policy ⟨false, none, 3⟩ "boom"

/-- C8: while its children are suspended, `SmartSuspense` shows the
"taking longer than expected" state from the moment the wall-clock delay
given by its `timeout` prop (default 10000 ms) has elapsed; and showing it
cancels nothing — whenever the children stop being suspended, they render in
place of any fallback. -/
theorem smartSuspense_timeout_view (minLT timeout t u : Nat) (h : timeout ≤ t) :
    SmartSuspense.render minLT timeout t true = SmartSuspense.View.timeoutMessage
    ∧ SmartSuspense.render minLT timeout u false = SmartSuspense.View.content
    ∧ SmartSuspense.defaultTimeout = 10000 := by
  refine ⟨?_, rfl, rfl⟩
  rw [SmartSuspense.render, if_pos rfl, if_pos h]

theorem smartSuspense_timeout_view_witness :
    SmartSuspense.render 200 SmartSuspense.defaultTimeout 10000 true
        = SmartSuspense.View.timeoutMessage
    ∧ SmartSuspense.render 200 SmartSuspense.defaultTimeout 123456 false
        = SmartSuspense.View.content
    ∧ SmartSuspense.defaultTimeout = 10000 :=
  smartSuspense_timeout_view 200 SmartSuspense.defaultTimeout 10000 123456 (by decide)

end MfeLearn
